import Mathlib

/-!
Verification development for the NebulaMind source-ingestion pipeline.

The definitions below are a shallow embedding of the TypeScript source:
* `fetchWebsiteContent` and `processFileWithGemini` from the AI service
  module (the ContentFetcher and FileTranscriber collaborators);
* `handleAddSource` from the SourcesTab component (the
  SourceIngestionPipeline);
* `displayedSources` from the SourcesTab component (the SourceFilter);
* `addSource`, `deleteSource`, `editSource` from `NotebookView.tsx` and the
  SourceCard edit-button handler (the NotebookStore operations).

External effects (network fetch, file decode, `crypto.randomUUID`,
`Date.now`) are modelled as explicit inputs: each `await`ed call becomes a
parameter holding its outcome (`Option` when the call can fail), and the
ambient clock and id generator are passed in an `IngestEnv` record.
Thrown `Error` values become `Except String` results carrying the thrown
message string.
-/

set_option autoImplicit false

/-- `listStartsWith pat l` : `pat` is a prefix of `l` (character lists). -/
def listStartsWith : List Char → List Char → Bool
  | [], _ => true
  | _ :: _, [] => false
  | p :: ps, c :: cs => p = c && listStartsWith ps cs

/-- `listContainsSub pat l` : `pat` occurs as a contiguous sublist of `l`.
Models JavaScript `String.prototype.includes`. -/
def listContainsSub (pat : List Char) : List Char → Bool
  | [] => pat.isEmpty
  | c :: cs => listStartsWith pat (c :: cs) || listContainsSub pat cs

/-- `strContains s pat` models the JavaScript expression `s.includes(pat)`. -/
def strContains (s pat : String) : Bool :=
  listContainsSub pat.toList s.toList

/-- `strStarts s pat` models the JavaScript expression `s.startsWith(pat)`. -/
def strStarts (s pat : String) : Bool :=
  listStartsWith pat.toList s.toList

/-- `jsTrim` models `String.prototype.trim`: strip leading and trailing
whitespace. -/
def jsTrim (s : String) : String :=
  String.mk (((s.toList.dropWhile Char.isWhitespace).reverse.dropWhile
    Char.isWhitespace).reverse)

/-- `jsToLower` models `String.prototype.toLowerCase`: lower-case every
character. -/
def jsToLower (s : String) : String :=
  String.mk (s.toList.map Char.toLower)

/-- Case-insensitive character equality, used for the `i` regex flag. -/
def lowerEq (a b : Char) : Bool :=
  a.toLower = b.toLower

/-- `ciStartsWith pat l` : `pat` is a case-insensitive prefix of `l`. -/
def ciStartsWith : List Char → List Char → Bool
  | [], _ => true
  | _ :: _, [] => false
  | p :: ps, c :: cs => lowerEq p c && ciStartsWith ps cs

/-- Drop everything up to and through the first case-insensitive occurrence
of `pat`; `none` when `pat` does not occur. -/
def ciDropThrough (pat : List Char) : List Char → Option (List Char)
  | [] => none
  | c :: cs =>
    if ciStartsWith pat (c :: cs) then some ((c :: cs).drop pat.length)
    else ciDropThrough pat cs

/-- One global pass of the regex `/<open[\s\S]*?<\/close>/gi` with the empty
replacement: at each position where `openTag` matches case-insensitively and
a case-insensitive `closeTag` occurs later, delete through that first
`closeTag` and continue scanning after it; otherwise keep the character.
`fuel` bounds the recursion (the scanned list shrinks at every step, so
`fuel = l.length` is always enough). -/
def removeBlocks (openTag closeTag : List Char) : Nat → List Char → List Char
  | 0, l => l
  | _ + 1, [] => []
  | fuel + 1, c :: cs =>
    if ciStartsWith openTag (c :: cs) then
      match ciDropThrough closeTag ((c :: cs).drop openTag.length) with
      | some rest => removeBlocks openTag closeTag fuel rest
      | none => c :: removeBlocks openTag closeTag fuel cs
    else c :: removeBlocks openTag closeTag fuel cs

/-- After an opening `<`, consume `[^>]+>` : at least one character other
than `>`, then everything through the first `>`; `none` if the regex
`<[^>]+>` cannot match here. -/
def tagEnd : List Char → Option (List Char)
  | [] => none
  | c :: cs => if c = '>' then none else tagEndAfter cs
where
  /-- Consume through the first `>`. -/
  tagEndAfter : List Char → Option (List Char)
    | [] => none
    | c :: cs => if c = '>' then some cs else tagEndAfter cs

/-- One global pass of the regex `/<[^>]+>/g` with replacement `' '`:
every maximal `<...>` tag collapses to a single space. -/
def stripTags : Nat → List Char → List Char
  | 0, l => l
  | _ + 1, [] => []
  | fuel + 1, c :: cs =>
    if c = '<' then
      match tagEnd cs with
      | some rest => ' ' :: stripTags fuel rest
      | none => c :: stripTags fuel cs
    else c :: stripTags fuel cs

/-- The stripping chain of `fetchWebsiteContent`:
`text.replace(/<script[\s\S]*?<\/script>/gi, '')
     .replace(/<style[\s\S]*?<\/style>/gi, '')
     .replace(/<[^>]+>/g, ' ')`. -/
def stripHtml (s : String) : String :=
  let l1 := removeBlocks "<script".toList "</script>".toList s.toList.length s.toList
  let l2 := removeBlocks "<style".toList "</style>".toList l1.length l1
  String.mk (stripTags l2.length l2)

/-- `fetchWebsiteContent` from the AI service module (the ContentFetcher).
`fetched` is the outcome of `await fetch(url)` followed by
`await res.text()`: `some text` on success, `none` when the transport or
body read threw (the `catch` branch). -/
def fetchWebsiteContent (url : String) (fetched : Option String) : String :=
  match fetched with
  | none => "Could not fetch content from " ++ url ++ "."
  | some text =>
    let plain := stripHtml text
    if jsTrim plain = "" then "Retrieved content from " ++ url
    else jsTrim plain

/-- An uploaded `File` as the pipeline observes it: its name, size,
declared MIME type, and the outcome of `await file.text()` (`none` when the
decode threw, handled by the `catch` branch). -/
structure FileModel where
  name : String
  size : Nat
  type : String
  textResult : Option String
  deriving DecidableEq, Repr

/-- `processFileWithGemini` from the AI service module (the
FileTranscriber). -/
def processFileWithGemini (file : FileModel) (mimeType : String) : String :=
  if strStarts mimeType "text/" then
    match file.textResult with
    | some text => text
    | none => "Could not process file " ++ file.name ++ "."
  else
    "Uploaded file " ++ file.name ++ " of type " ++ mimeType ++
      " has been received. Text extraction requires server‑side processing."

/-- The `metadata` object attached to a source: an open bag whose populated
fields depend on the source type (`{ originalUrl }` for website/youtube,
`{ filename, size }` for file uploads, `{}` for pasted text). -/
structure Metadata where
  originalUrl : Option String := none
  filename : Option String := none
  size : Option Nat := none
  deriving DecidableEq, Repr

/-- The `Source` record assembled by `handleAddSource`. The `type` field is
a string literal in the TypeScript union, so it is modelled as a `String`. -/
structure Source where
  id : String
  type : String
  title : String
  content : String
  createdAt : Nat
  metadata : Metadata
  deriving DecidableEq, Repr

/-- The `Notebook` record as used by `NotebookView.tsx`. -/
structure Notebook where
  id : String
  title : String
  sources : List Source
  updatedAt : Nat
  deriving DecidableEq, Repr

/-- The three file-upload kinds the SourcesTab can select: the TypeScript
state `fileType : 'pdf' | 'audio' | 'image' | null` (the `null` case is the
`Option` wrapper at the use site). -/
inductive FileKind
  | pdf | audio | image
  deriving DecidableEq, Repr

/-- The string literal carried by each `FileKind`. -/
def FileKind.str : FileKind → String
  | .pdf => "pdf"
  | .audio => "audio"
  | .image => "image"

/-- A request to `handleAddSource`: the active modal together with the
input state it reads.  Awaited external calls are carried as their
outcomes: `fetched` is the result of `await fetch(inputValue)` plus
`res.text()` for the website path (`none` = the call threw), and
`oembedTitle` is `some t` exactly when the oEmbed lookup succeeded and
returned a truthy `title` field `t` (any failure or falsy title is
`none`, matching the swallowed `catch` and the `if (json.title)` guard). -/
inductive IngestRequest
  /-- `activeModal === 'text'` with the typed text and optional title. -/
  | text (inputValue : String) (titleValue : String)
  /-- `activeModal === 'website'`. -/
  | website (inputValue : String) (titleValue : String) (fetched : Option String)
  /-- `activeModal === 'youtube'`. -/
  | youtube (inputValue : String) (titleValue : String) (oembedTitle : Option String)
  /-- `activeModal === 'file'` with the selected file kind and file. -/
  | file (fileType : Option FileKind) (selectedFile : Option FileModel) (titleValue : String)
  deriving DecidableEq

/-- Ambient values `handleAddSource` reads: `crypto.randomUUID()`,
`Date.now()`, and `new Date().toLocaleTimeString()`. -/
structure IngestEnv where
  uuid : String
  now : Nat
  timeString : String
  deriving DecidableEq, Repr

/-- The dispatch chain of `handleAddSource` (the `if/else if` ladder): on
success it yields the local variables `(content, finalTitle, type,
metadata)` as they stand when control reaches the final content guard;
thrown errors surface as `Except.error` with the thrown message.  The
initial values are `content = ''`, `finalTitle = titleValue`,
`type = 'copiedText'`, `metadata = {}`; a `file` request with no selected
file (or no file kind) matches no branch and leaves them unchanged. -/
def handleAddSourceDispatch (req : IngestRequest) (env : IngestEnv) :
    Except String (String × String × String × Metadata) :=
  match req with
  | .text inputValue titleValue =>
    let content := inputValue
    let finalTitle :=
      if titleValue = "" then "Pasted Text " ++ env.timeString else titleValue
    .ok (content, finalTitle, "copiedText", {})
  | .website inputValue titleValue fetched =>
    if !(strStarts inputValue "http") then
      .error "Invalid URL"
    else
      let content := fetchWebsiteContent inputValue fetched
      let finalTitle := if titleValue = "" then inputValue else titleValue
      .ok (content, finalTitle, "website", { originalUrl := some inputValue })
  | .youtube inputValue titleValue oembedTitle =>
    if !(strContains inputValue "youtube.com") && !(strContains inputValue "youtu.be") then
      .error "Invalid YouTube URL"
    else
      let afterLookup :=
        match oembedTitle with
        | some t => t
        | none => titleValue
      let finalTitle := if afterLookup = "" then "YouTube Video" else afterLookup
      let content :=
        "[YouTube Video Source]\nURL: " ++ inputValue ++ "\nTitle: " ++ finalTitle ++
          "\n\n(Note: Video transcript ingestion requires backend API. Treat this source as context for the video\x27s existence.)"
      .ok (content, finalTitle, "youtube", { originalUrl := some inputValue })
  | .file fileType selectedFile titleValue =>
    match fileType, selectedFile with
    | some ft, some f =>
      let finalTitle := if titleValue = "" then f.name else titleValue
      let content := processFileWithGemini f f.type
      .ok (content, finalTitle, ft.str, { filename := some f.name, size := some f.size })
    | _, _ => .ok ("", titleValue, "copiedText", {})

/-- `handleAddSource` from the SourcesTab component: run the dispatch
chain, apply the final guard `if (!content) throw new Error('No content
could be extracted.')`, and assemble the new `Source`.  An `Except.ok`
result is the source handed to `onAddSource`; an `Except.error` is the
thrown message shown to the user (no source is created). -/
def handleAddSource (req : IngestRequest) (env : IngestEnv) : Except String Source :=
  match handleAddSourceDispatch req env with
  | .error e => .error e
  | .ok (content, finalTitle, ty, md) =>
    if content = "" then .error "No content could be extracted."
    else
      .ok { id := env.uuid, type := ty, title := finalTitle, content := content,
            createdAt := env.now, metadata := md }

/-- The match predicate of `displayedSources`: case-insensitive substring
test of the lowercased query against the lowercased title or content. -/
def matchesQuery (s : Source) (searchQuery : String) : Bool :=
  strContains (jsToLower s.title) (jsToLower searchQuery) ||
    strContains (jsToLower s.content) (jsToLower searchQuery)

/-- `displayedSources` from the SourcesTab component (the SourceFilter):
`sources.filter(s => { if (!searchQuery.trim()) return true; const q =
searchQuery.toLowerCase(); return s.title.toLowerCase().includes(q) ||
s.content.toLowerCase().includes(q); })`. -/
def displayedSources (sources : List Source) (searchQuery : String) : List Source :=
  sources.filter fun s =>
    if jsTrim searchQuery = "" then true
    else matchesQuery s searchQuery

/-- `addSource` from `NotebookView.tsx`: append and bump `updatedAt`. -/
def addSource (nb : Notebook) (source : Source) (now : Nat) : Notebook :=
  { nb with sources := nb.sources ++ [source], updatedAt := now }

/-- `deleteSource` from `NotebookView.tsx`:
`{ ...notebook, sources: notebook.sources.filter(s => s.id !== id),
updatedAt: Date.now() }`. -/
def deleteSource (nb : Notebook) (id : String) (now : Nat) : Notebook :=
  { nb with sources := nb.sources.filter (fun s => s.id != id), updatedAt := now }

/-- `editSource` from `NotebookView.tsx`: replace the source with matching
id and bump `updatedAt`. -/
def editSource (nb : Notebook) (updatedSource : Source) (now : Nat) : Notebook :=
  { nb with
    sources := nb.sources.map (fun s => if s.id == updatedSource.id then updatedSource else s),
    updatedAt := now }

/-- The SourceCard edit-button handler from the SourcesTab component
combined with the `editSource` callback it invokes: `newTitle` is what
`prompt` returned (`none` = cancelled).  The guard is
`if (newTitle && newTitle.trim() && newTitle !== source.title)`; when it
passes, `onEditSource({ ...source, title: newTitle.trim() })` runs, which
`NotebookView.editSource` applies with a fresh timestamp.  Otherwise
nothing happens. -/
def editSourceTitleHandler (nb : Notebook) (source : Source)
    (newTitle : Option String) (now : Nat) : Notebook :=
  match newTitle with
  | none => nb
  | some newTitle =>
    if newTitle != "" && jsTrim newTitle != "" && newTitle != source.title then
      editSource nb { source with title := jsTrim newTitle } now
    else nb

/-- Claim C6: `fetchWebsiteContent` is total (it is a plain Lean function
into `String`, so for every url and every outcome of the underlying
transport it returns a string and never raises), and on a transport or
parse error — and likewise when the stripped page text is empty after
trimming — the returned string is a placeholder that contains the given
url (the equalities below exhibit the url inside each placeholder). -/
theorem fetch_text_total_placeholder (url : String) (fetched : Option String) :
    (fetched = none →
      fetchWebsiteContent url fetched = "Could not fetch content from " ++ url ++ ".") ∧
    (∀ t, fetched = some t → jsTrim (stripHtml t) = "" →
      fetchWebsiteContent url fetched = "Retrieved content from " ++ url) := by
  constructor
  · intro h
    subst h
    rfl
  · intro t h ht
    subst h
    simp [fetchWebsiteContent, ht]

/-- Witness for C6: fetching `"http://nonexistent.invalid/"` when the
transport throws yields the placeholder naming that url, and a page that
strips to whitespace yields the retrieved-content placeholder. -/
theorem fetch_text_total_placeholder_witness :
    fetchWebsiteContent "http://nonexistent.invalid/" none
      = "Could not fetch content from " ++ "http://nonexistent.invalid/" ++ "." ∧
    fetchWebsiteContent "http://nonexistent.invalid/" (some "<p></p>")
      = "Retrieved content from " ++ "http://nonexistent.invalid/" := by
  refine ⟨(fetch_text_total_placeholder "http://nonexistent.invalid/" none).1 rfl,
    (fetch_text_total_placeholder "http://nonexistent.invalid/" (some "<p></p>")).2
      "<p></p>" rfl (by decide)⟩

/-- Claim C7: `processFileWithGemini` on a file whose declared MIME type
starts with `text/` returns the decoded text verbatim; for every other
MIME type it returns the stub string, whose shape exhibits both the file
name and the MIME type; a decode failure on the text path returns the
file-naming placeholder instead of raising.  Totality (never raises) is
inherent: the function is a plain Lean function into `String`. -/
theorem transcribe_text_verbatim_stub (file : FileModel) (mimeType t : String) :
    (strStarts mimeType "text/" = true → file.textResult = some t →
      processFileWithGemini file mimeType = t) ∧
    (strStarts mimeType "text/" = false →
      processFileWithGemini file mimeType =
        "Uploaded file " ++ file.name ++ " of type " ++ mimeType ++
          " has been received. Text extraction requires server‑side processing.") ∧
    (strStarts mimeType "text/" = true → file.textResult = none →
      processFileWithGemini file mimeType = "Could not process file " ++ file.name ++ ".") := by
  refine ⟨?_, ?_, ?_⟩
  · intro h1 h2
    simp [processFileWithGemini, h1, h2]
  · intro h1
    simp [processFileWithGemini, h1]
  · intro h1 h2
    simp [processFileWithGemini, h1, h2]

/-- Witness for C7: a `text/plain` file with content `"hello"` transcribes
to exactly `"hello"`, and an `image/png` file yields the stub naming the
file and the MIME type. -/
theorem transcribe_text_verbatim_stub_witness :
    processFileWithGemini ⟨"notes.txt", 5, "text/plain", some "hello"⟩ "text/plain" = "hello" ∧
    processFileWithGemini ⟨"pic.png", 3, "image/png", none⟩ "image/png" =
      "Uploaded file " ++ "pic.png" ++ " of type " ++ "image/png" ++
        " has been received. Text extraction requires server‑side processing." := by
  exact ⟨(transcribe_text_verbatim_stub ⟨"notes.txt", 5, "text/plain", some "hello"⟩
            "text/plain" "hello").1 (by decide) rfl,
         (transcribe_text_verbatim_stub ⟨"pic.png", 3, "image/png", none⟩
            "image/png" "").2.1 (by decide)⟩

/-- A nonempty string has positive length. -/
theorem string_length_pos_of_ne_empty {s : String} (h : s ≠ "") : 0 < s.length := by
  cases s with
  | mk data =>
    cases data with
    | nil => exact absurd rfl h
    | cons a l => simp [String.length]

/-- Inversion for a successful ingestion: the dispatch chain produced the
local variables, the content guard passed, and the returned source is the
assembled record. -/
theorem handleAddSource_ok_inv (req : IngestRequest) (env : IngestEnv) (src : Source)
    (h : handleAddSource req env = .ok src) :
    ∃ c ft ty md, handleAddSourceDispatch req env = .ok (c, ft, ty, md) ∧ c ≠ "" ∧
      src = { id := env.uuid, type := ty, title := ft, content := c,
              createdAt := env.now, metadata := md } := by
  unfold handleAddSource at h
  cases hd : handleAddSourceDispatch req env with
  | error e =>
    rw [hd] at h
    simp at h
  | ok tup =>
    obtain ⟨c, ft, ty, md⟩ := tup
    rw [hd] at h
    by_cases hc : c = ""
    · simp [hc] at h
    · simp [hc] at h
      exact ⟨c, ft, ty, md, rfl, hc, h.symm⟩

/-- Every quadruple the dispatch chain can produce carries one of the six
type strings the code can assign. -/
theorem dispatch_type_mem (req : IngestRequest) (env : IngestEnv)
    (c ft ty : String) (md : Metadata)
    (h : handleAddSourceDispatch req env = .ok (c, ft, ty, md)) :
    ty ∈ (["copiedText", "website", "youtube", "pdf", "audio", "image"] : List String) := by
  cases req with
  | text i t =>
    simp [handleAddSourceDispatch] at h
    simp [h.2.2.1.symm]
  | website i t fetched =>
    by_cases hv : strStarts i "http"
    · simp [handleAddSourceDispatch, hv] at h
      simp [h.2.2.1.symm]
    · simp [handleAddSourceDispatch, hv] at h
  | youtube i t oe =>
    by_cases h1 : strContains i "youtube.com"
    · simp [handleAddSourceDispatch, h1] at h
      simp [h.2.2.1.symm]
    · by_cases h2 : strContains i "youtu.be"
      · simp [handleAddSourceDispatch, h1, h2] at h
        simp [h.2.2.1.symm]
      · simp [handleAddSourceDispatch, h1, h2] at h
  | file ft? f? t =>
    cases ft? with
    | none =>
      simp [handleAddSourceDispatch] at h
      simp [h.2.2.1.symm]
    | some k =>
      cases f? with
      | none =>
        simp [handleAddSourceDispatch] at h
        simp [h.2.2.1.symm]
      | some f =>
        simp [handleAddSourceDispatch] at h
        cases k <;> simp [FileKind.str] at h <;> simp [h.2.2.1.symm]

/-- Claim C1: for every ingestion request of any type, if the extracted
content (the `content` variable as it reaches the final guard) is the
empty string then `handleAddSource` fails with the EmptyContent error
`'No content could be extracted.'` and no `Source` is created; and every
`Source` a successful ingestion returns has `content.length > 0`. -/
theorem ingest_empty_content_guard (req : IngestRequest) (env : IngestEnv) :
    (∀ c ft ty md, handleAddSourceDispatch req env = .ok (c, ft, ty, md) → c = "" →
      handleAddSource req env = .error "No content could be extracted.") ∧
    (∀ src, handleAddSource req env = .ok src → 0 < src.content.length) := by
  constructor
  · intro c ft ty md hd hc
    unfold handleAddSource
    rw [hd]
    simp [hc]
  · intro src h
    obtain ⟨c, ft, ty, md, hd, hc, rfl⟩ := handleAddSource_ok_inv req env src h
    exact string_length_pos_of_ne_empty hc

/-- Witness for C1: empty pasted text is rejected with the EmptyContent
error, and a successful ingestion of `"hi"` yields a source of positive
content length. -/
theorem ingest_empty_content_guard_witness :
    handleAddSource (.text "" "T") ⟨"u1", 7, "tm"⟩ = .error "No content could be extracted." ∧
    0 < ({ id := "u1", type := "copiedText", title := "T", content := "hi",
           createdAt := 7, metadata := {} } : Source).content.length := by
  exact ⟨(ingest_empty_content_guard (.text "" "T") ⟨"u1", 7, "tm"⟩).1
           "" "T" "copiedText" {} rfl rfl,
         (ingest_empty_content_guard (.text "hi" "T") ⟨"u1", 7, "tm"⟩).2 _ rfl⟩

/-- Counterexample to claim C2: a pdf ingestion request with no selected
file fails with `'No content could be extracted.'` — exactly the same
error the final EmptyContent guard raises (second conjunct: empty pasted
text produces the identical error) — not with a distinct MissingInput
error class, which the code never implements. -/
theorem missing_file_error_cex :
    handleAddSource (.file (some .pdf) none "T") ⟨"u1", 7, "tm"⟩
      = .error "No content could be extracted." ∧
    handleAddSource (.text "" "T") ⟨"u1", 7, "tm"⟩
      = .error "No content could be extracted." :=
  ⟨rfl, rfl⟩

/-- Claim C2 as amended: for every ingestion request of type pdf, audio,
or image with no file selected, no dispatch branch matches, the `content`
variable stays empty, and ingestion fails with the EmptyContent guard
error `'No content could be extracted.'` (there is no separate
MissingInput error class in the code); no `Source` is produced. -/
theorem missing_file_empty_content_error (ft : Option FileKind) (title : String)
    (env : IngestEnv) :
    handleAddSource (.file ft none title) env = .error "No content could be extracted." := by
  cases ft <;> rfl

/-- Counterexample to claim C4: ingesting raw pasted text yields a
`Source` whose `type` is the string `"copiedText"`, which is not
`"pastedText"` and lies outside the closed set the claim names. -/
theorem pasted_type_cex :
    handleAddSource (.text "hello" "T") ⟨"u1", 7, "tm"⟩
      = .ok { id := "u1", type := "copiedText", title := "T", content := "hello",
              createdAt := 7, metadata := {} } ∧
    ("copiedText" : String) ∉
      (["pastedText", "website", "youtube", "pdf", "audio", "image"] : List String) :=
  ⟨rfl, by decide⟩

/-- Claim C4 as amended: every `Source` produced by ingestion has a type
drawn from the closed set {copiedText, website, youtube, pdf, audio,
image}; in particular, ingesting raw pasted text yields a `Source` whose
type is `copiedText`. -/
theorem source_type_closed_set (req : IngestRequest) (env : IngestEnv) :
    (∀ src, handleAddSource req env = .ok src →
      src.type ∈ (["copiedText", "website", "youtube", "pdf", "audio", "image"] : List String)) ∧
    (∀ input title src, handleAddSource (.text input title) env = .ok src →
      src.type = "copiedText") := by
  constructor
  · intro src h
    obtain ⟨c, ft, ty, md, hd, hc, rfl⟩ := handleAddSource_ok_inv req env src h
    exact dispatch_type_mem req env c ft ty md hd
  · intro input title src h
    obtain ⟨c, ft, ty, md, hd, hc, rfl⟩ := handleAddSource_ok_inv (.text input title) env src h
    simp [handleAddSourceDispatch] at hd
    simp [hd.2.2.1.symm]

/-- Witness for C4 (amended): the source ingested from pasted `"hi"` has
type `"copiedText"`, a member of the closed set. -/
theorem source_type_closed_set_witness :
    ({ id := "u1", type := "copiedText", title := "T", content := "hi",
       createdAt := 7, metadata := {} } : Source).type
      ∈ (["copiedText", "website", "youtube", "pdf", "audio", "image"] : List String) ∧
    ({ id := "u1", type := "copiedText", title := "T", content := "hi",
       createdAt := 7, metadata := {} } : Source).type = "copiedText" := by
  exact ⟨(source_type_closed_set (.text "hi" "T") ⟨"u1", 7, "tm"⟩).1 _ rfl,
         (source_type_closed_set (.text "hi" "T") ⟨"u1", 7, "tm"⟩).2 "hi" "T" _ rfl⟩

/-- Claim C5: a website ingestion whose input does not start with `http`
fails with the InvalidInput error `'Invalid URL'` (and produces no
source), and a youtube ingestion whose input contains neither
`youtube.com` nor `youtu.be` fails with the InvalidInput error
`'Invalid YouTube URL'`. -/
theorem invalid_url_errors (input title : String) (fetched oembed : Option String)
    (env : IngestEnv) :
    (strStarts input "http" = false →
      handleAddSource (.website input title fetched) env = .error "Invalid URL") ∧
    (strContains input "youtube.com" = false → strContains input "youtu.be" = false →
      handleAddSource (.youtube input title oembed) env = .error "Invalid YouTube URL") := by
  constructor
  · intro h
    simp [handleAddSource, handleAddSourceDispatch, h]
  · intro h1 h2
    simp [handleAddSource, handleAddSourceDispatch, h1, h2]

/-- Witness for C5: `"ftp://example.com"` is rejected as a website url,
and `"http://example.com/watch"` is rejected as a youtube url. -/
theorem invalid_url_errors_witness :
    handleAddSource (.website "ftp://example.com" "T" none) ⟨"u1", 7, "tm"⟩
      = .error "Invalid URL" ∧
    handleAddSource (.youtube "http://example.com/watch" "T" none) ⟨"u1", 7, "tm"⟩
      = .error "Invalid YouTube URL" := by
  exact ⟨(invalid_url_errors "ftp://example.com" "T" none none ⟨"u1", 7, "tm"⟩).1 (by decide),
         (invalid_url_errors "http://example.com/watch" "T" none none ⟨"u1", 7, "tm"⟩).2
           (by decide) (by decide)⟩

/-- Claim C9: the pipeline's empty-content guard tests only for the exact
empty string (`if (!content)`): pasted text ingestion succeeds with the
raw text as content — including text that is whitespace-only but
non-empty — and raises the final content error exactly when the input is
the empty string. -/
theorem whitespace_content_accepted (input title : String) (env : IngestEnv) :
    (input ≠ "" →
      handleAddSource (.text input title) env =
        .ok { id := env.uuid, type := "copiedText",
              title := if title = "" then "Pasted Text " ++ env.timeString else title,
              content := input, createdAt := env.now, metadata := {} }) ∧
    (input = "" →
      handleAddSource (.text input title) env = .error "No content could be extracted.") := by
  constructor
  · intro h
    simp [handleAddSource, handleAddSourceDispatch, h]
  · intro h
    simp [handleAddSource, handleAddSourceDispatch, h]

/-- Witness for C9: the whitespace-only paste `" "` is accepted and its
content is exactly `" "`; the empty paste is rejected. -/
theorem whitespace_content_accepted_witness :
    handleAddSource (.text " " "T") ⟨"u1", 7, "tm"⟩ =
      .ok { id := "u1", type := "copiedText", title := "T", content := " ",
            createdAt := 7, metadata := {} } ∧
    handleAddSource (.text "" "T") ⟨"u1", 7, "tm"⟩ =
      .error "No content could be extracted." := by
  refine ⟨?_, (whitespace_content_accepted "" "T" ⟨"u1", 7, "tm"⟩).2 rfl⟩
  have h := (whitespace_content_accepted " " "T" ⟨"u1", 7, "tm"⟩).1 (by decide)
  simpa using h

/-- Claim C8: `displayedSources` with an empty or whitespace-only query
returns the input list unchanged; with a non-blank query it returns
exactly the sources whose lowercased title or content contains the
lowercased query as a substring, preserving the original relative order
(the result is a sublist of the input).  The function is pure, so the
input is never mutated. -/
theorem source_filter_spec (sources : List Source) (q : String) :
    (jsTrim q = "" → displayedSources sources q = sources) ∧
    (jsTrim q ≠ "" →
      (displayedSources sources q).Sublist sources ∧
      ∀ s, s ∈ displayedSources sources q ↔ s ∈ sources ∧ matchesQuery s q = true) := by
  constructor
  · intro h
    simp [displayedSources, h]
  · intro h
    refine ⟨List.filter_sublist _, ?_⟩
    intro s
    simp [displayedSources, h, List.mem_filter]

/-- Witness for C8: the empty query returns the two-source list
unchanged, and the query `"cat"` keeps a source titled `"Cats"` (title
match) and a source whose content is `"cats are great"` (content match). -/
theorem source_filter_spec_witness :
    displayedSources
        [{ id := "1", type := "copiedText", title := "Cats", content := "x",
           createdAt := 0, metadata := {} },
         { id := "2", type := "copiedText", title := "Dogs", content := "cats are great",
           createdAt := 0, metadata := {} }] ""
      = [{ id := "1", type := "copiedText", title := "Cats", content := "x",
           createdAt := 0, metadata := {} },
         { id := "2", type := "copiedText", title := "Dogs", content := "cats are great",
           createdAt := 0, metadata := {} }] ∧
    ({ id := "1", type := "copiedText", title := "Cats", content := "x",
       createdAt := 0, metadata := {} } : Source) ∈
      displayedSources
        [{ id := "1", type := "copiedText", title := "Cats", content := "x",
           createdAt := 0, metadata := {} },
         { id := "2", type := "copiedText", title := "Dogs", content := "cats are great",
           createdAt := 0, metadata := {} }] "cat" ∧
    ({ id := "2", type := "copiedText", title := "Dogs", content := "cats are great",
       createdAt := 0, metadata := {} } : Source) ∈
      displayedSources
        [{ id := "1", type := "copiedText", title := "Cats", content := "x",
           createdAt := 0, metadata := {} },
         { id := "2", type := "copiedText", title := "Dogs", content := "cats are great",
           createdAt := 0, metadata := {} }] "cat" := by
  refine ⟨(source_filter_spec _ "").1 rfl, ?_, ?_⟩
  · exact ((source_filter_spec _ "cat").2 (by decide)).2 _ |>.mpr ⟨by simp, by decide⟩
  · exact ((source_filter_spec _ "cat").2 (by decide)).2 _ |>.mpr ⟨by simp, by decide⟩

/-- Claim C10: `deleteSource` always stamps `updatedAt` with the current
time, also when no source matches the id; in the unmatched case the
resulting source list is element-for-element the input list; and in every
case the survivors are exactly the sources whose id differs from the
deleted one, kept in their original order. -/
theorem delete_source_spec (nb : Notebook) (id : String) (now : Nat) :
    (deleteSource nb id now).updatedAt = now ∧
    ((∀ s ∈ nb.sources, s.id ≠ id) → (deleteSource nb id now).sources = nb.sources) ∧
    (deleteSource nb id now).sources.Sublist nb.sources ∧
    (∀ s, s ∈ (deleteSource nb id now).sources ↔ s ∈ nb.sources ∧ s.id ≠ id) := by
  refine ⟨rfl, ?_, List.filter_sublist _, ?_⟩
  · intro h
    simp only [deleteSource]
    exact List.filter_eq_self.mpr fun s hs => by simp [bne_iff_ne, h s hs]
  · intro s
    simp [deleteSource, List.mem_filter, bne_iff_ne]

/-- Witness for C10: deleting the unknown id `"zz"` from a one-source
notebook keeps the source list identical and still sets `updatedAt`. -/
theorem delete_source_spec_witness :
    (deleteSource
        { id := "n1", title := "NB",
          sources := [{ id := "s1", type := "copiedText", title := "A", content := "c",
                        createdAt := 0, metadata := {} }],
          updatedAt := 0 } "zz" 9).sources
      = [{ id := "s1", type := "copiedText", title := "A", content := "c",
           createdAt := 0, metadata := {} }] ∧
    (deleteSource
        { id := "n1", title := "NB",
          sources := [{ id := "s1", type := "copiedText", title := "A", content := "c",
                        createdAt := 0, metadata := {} }],
          updatedAt := 0 } "zz" 9).updatedAt = 9 := by
  exact ⟨(delete_source_spec _ "zz" 9).2.1 (by decide), (delete_source_spec _ "zz" 9).1⟩

/-- Counterexample to claim C3: the edit handler compares the *untrimmed*
new title with the current one.  With current title `"Cats"` and new
title `"Cats "` the two agree after trimming both sides, so the claim
demands a complete no-op; yet the handler passes its guard, rewrites the
source (to the same trimmed title) and bumps the notebook's `updatedAt`
from 0 to 1. -/
theorem edit_title_trim_compare_cex :
    jsTrim "Cats " = jsTrim "Cats" ∧
    editSourceTitleHandler
        { id := "n1", title := "NB",
          sources := [{ id := "s1", type := "copiedText", title := "Cats", content := "c",
                        createdAt := 0, metadata := {} }],
          updatedAt := 0 }
        { id := "s1", type := "copiedText", title := "Cats", content := "c",
          createdAt := 0, metadata := {} }
        (some "Cats ") 1
      = { id := "n1", title := "NB",
          sources := [{ id := "s1", type := "copiedText", title := "Cats", content := "c",
                        createdAt := 0, metadata := {} }],
          updatedAt := 1 } := by
  constructor
  · decide
  · decide

/-- Claim C3 as amended: the edit handler is a complete no-op (same
sources, same `updatedAt`) when the prompt is cancelled, when the new
title is blank (empty or whitespace-only), or when the new title is
*exactly* equal to the current title; the comparison is on the untrimmed
title, and when it passes, the source is stored with the trimmed title
and the notebook's `updatedAt` is refreshed. -/
theorem edit_title_noop_guard (nb : Notebook) (source : Source) (t : String) (now : Nat) :
    (editSourceTitleHandler nb source none now = nb) ∧
    (jsTrim t = "" ∨ t = source.title →
      editSourceTitleHandler nb source (some t) now = nb) ∧
    (jsTrim t ≠ "" → t ≠ source.title →
      editSourceTitleHandler nb source (some t) now =
        editSource nb { source with title := jsTrim t } now) := by
  refine ⟨rfl, ?_, ?_⟩
  · intro h
    rcases h with h | h
    · by_cases he : t = ""
      · simp [editSourceTitleHandler, he]
      · simp [editSourceTitleHandler, he, h]
    · simp [editSourceTitleHandler, h]
  · intro h1 h2
    have hne : t ≠ "" := by
      intro he
      exact h1 (by simp [he, jsTrim])
    simp [editSourceTitleHandler, hne, h1, h2]

/-- Witness for C3 (amended): on a source titled `"Cats"`, a
whitespace-only title and the exactly-equal title `"Cats"` are no-ops,
while `" Dogs "` passes the guard and is stored trimmed with a fresh
timestamp. -/
theorem edit_title_noop_guard_witness :
    editSourceTitleHandler
        { id := "n1", title := "NB",
          sources := [{ id := "s1", type := "copiedText", title := "Cats", content := "c",
                        createdAt := 0, metadata := {} }],
          updatedAt := 0 }
        { id := "s1", type := "copiedText", title := "Cats", content := "c",
          createdAt := 0, metadata := {} }
        (some "  ") 5
      = { id := "n1", title := "NB",
          sources := [{ id := "s1", type := "copiedText", title := "Cats", content := "c",
                        createdAt := 0, metadata := {} }],
          updatedAt := 0 } ∧
    editSourceTitleHandler
        { id := "n1", title := "NB",
          sources := [{ id := "s1", type := "copiedText", title := "Cats", content := "c",
                        createdAt := 0, metadata := {} }],
          updatedAt := 0 }
        { id := "s1", type := "copiedText", title := "Cats", content := "c",
          createdAt := 0, metadata := {} }
        (some "Cats") 5
      = { id := "n1", title := "NB",
          sources := [{ id := "s1", type := "copiedText", title := "Cats", content := "c",
                        createdAt := 0, metadata := {} }],
          updatedAt := 0 } ∧
    editSourceTitleHandler
        { id := "n1", title := "NB",
          sources := [{ id := "s1", type := "copiedText", title := "Cats", content := "c",
                        createdAt := 0, metadata := {} }],
          updatedAt := 0 }
        { id := "s1", type := "copiedText", title := "Cats", content := "c",
          createdAt := 0, metadata := {} }
        (some " Dogs ") 5
      = editSource
          { id := "n1", title := "NB",
            sources := [{ id := "s1", type := "copiedText", title := "Cats", content := "c",
                          createdAt := 0, metadata := {} }],
            updatedAt := 0 }
          { id := "s1", type := "copiedText", title := jsTrim " Dogs ", content := "c",
            createdAt := 0, metadata := {} }
          5 := by
  refine ⟨(edit_title_noop_guard _ _ "  " 5).2.1 (Or.inl (by decide)),
          (edit_title_noop_guard _ _ "Cats" 5).2.1 (Or.inr rfl),
          (edit_title_noop_guard _ _ " Dogs " 5).2.2 (by decide) (by decide)⟩
